import Mathlib

/-!
Shallow embedding of the occupancy-grid core of `src/main.rs`.

Machine integers are modelled as `Nat` (for `u32`/`usize` values) and `Int`
(for `i32` values); every place where the Rust code performs `u32` arithmetic
or a `u32 <-> i32` cast takes an explicit `% 4294967296` (two's complement
reinterpretation for the casts).  A Rust panic (`unwrap`, `expect`, slice
indexing out of bounds) is modelled as `none` in an `Option` layer; a
recoverable `Result` is modelled as `Except`.
-/

/-- Reinterpretation of a `u32` bit pattern as an `i32` (Rust `as i32` cast). -/
def u32_to_i32 (n : Nat) : Int :=
  if n % 4294967296 < 2147483648 then ((n % 4294967296 : Nat) : Int)
  else ((n % 4294967296 : Nat) : Int) - 4294967296

/-- Reinterpretation of an `i32` value as a `u32` bit pattern (Rust `as u32` cast). -/
def i32_to_u32 (x : Int) : Nat :=
  (x % 4294967296).toNat

/-- Rust `struct CellPos(i32, i32)`: the two fields are the x and y coordinate. -/
structure CellPos where
  x : Int
  y : Int
deriving DecidableEq

/-- Rust `struct Cell { is_wall: bool }`. -/
structure Cell where
  is_wall : Bool
deriving DecidableEq

/-- Rust `struct OutOfBounds { cell_pos: CellPos }`, the single error kind. -/
structure OutOfBounds where
  cell_pos : CellPos
deriving DecidableEq

/-- Rust `struct Grid { width: u32, height: u32, cells: Vec<Cell> }`.
The `u32` fields are modelled as `Nat`; a grid coming from the running
program always has `width < 2^32` and `height < 2^32`. -/
structure Grid where
  width : Nat
  height : Nat
  cells : List Cell
deriving DecidableEq

/-- Rust `struct CellChangeEvent(CellPos)`: the event payload is one position. -/
structure CellChangeEvent where
  cell_pos : CellPos
deriving DecidableEq

/-- Rust `Grid::new`: allocates `height*width` cells (computed in `u32`
arithmetic, hence the `% 2^32`), all non-wall. -/
def Grid.new (width height : Nat) : Grid :=
  { width := width
    height := height
    cells := List.replicate (height * width % 4294967296) { is_wall := false } }

/-- Rust `Grid::contains_pos`: `x >= 0 && x < self.width as i32 && y >= 0 && y < self.height as i32`. -/
def Grid.contains_pos (g : Grid) (p : CellPos) : Bool :=
  decide (0 ≤ p.x) && decide (p.x < u32_to_i32 g.width) &&
    decide (0 ≤ p.y) && decide (p.y < u32_to_i32 g.height)

/-- Rust `Grid::cell_pos_to_index`: rejects positions outside the grid, else
returns `(self.width * y + x) as usize` where `x`, `y` have been cast to `u32`
and the arithmetic is `u32` arithmetic (wrapping, hence the `% 2^32`). -/
def Grid.cell_pos_to_index (g : Grid) (p : CellPos) : Except OutOfBounds Nat :=
  if g.contains_pos p = false then Except.error { cell_pos := p }
  else Except.ok ((g.width % 4294967296 * i32_to_u32 p.y + i32_to_u32 p.x) % 4294967296)

/-- Rust `Grid::cell`: propagates the `OutOfBounds` error of
`cell_pos_to_index`; the vector indexing `self.cells[index]` panics (`none`)
when the index is out of the vector's range. -/
def Grid.cell (g : Grid) (p : CellPos) : Option (Except OutOfBounds Cell) :=
  match g.cell_pos_to_index p with
  | Except.error e => some (Except.error e)
  | Except.ok i => (g.cells[i]?).map Except.ok

/-- Rust `Grid::cell_mut`: same control flow as `cell`, except that the
out-of-range vector access goes through `get_mut(index).unwrap()` (a panic,
modelled as `none`).  The value is the cell the returned `&mut Cell` points to. -/
def Grid.cell_mut (g : Grid) (p : CellPos) : Option (Except OutOfBounds Cell) :=
  match g.cell_pos_to_index p with
  | Except.error e => some (Except.error e)
  | Except.ok i => (g.cells[i]?).map Except.ok

/-- Rust `Grid::set_cell`: `*self.cell_mut(cell_pos)? = cell; Ok(self)`.
The result pairs the returned `Result` (with `Unit` standing for the
`&mut Self` borrow) with the post-state of the grid; `none` models the panic
inside `cell_mut` when the computed index is outside the cell vector. -/
def Grid.set_cell (g : Grid) (p : CellPos) (c : Cell) :
    Option (Except OutOfBounds Unit × Grid) :=
  match g.cell_pos_to_index p with
  | Except.error e => some (Except.error e, g)
  | Except.ok i =>
    if i < g.cells.length then
      some (Except.ok Unit.unit, { g with cells := g.cells.set i c })
    else none

/-- Rust `self.cell(cell_pos).expect("Internal iterator operating on known size")`
inside `iter_cell_pos`: a panic (`none`) both when `cell` itself panics and
when it returns `Err`. -/
def Grid.cell_expect (g : Grid) (p : CellPos) : Option Cell :=
  match g.cell p with
  | some (Except.ok c) => some c
  | _ => none

/-- Rust `(0..self.width).cartesian_product(0..self.height)` mapped to
`CellPos(x as i32, y as i32)`: the outer loop is over `x`, the inner loop over
`y`.  The range bounds are the `u32` values of the fields. -/
def Grid.cartesian_positions (g : Grid) : List CellPos :=
  (List.range (g.width % 4294967296)).flatMap fun x =>
    (List.range (g.height % 4294967296)).map fun y =>
      { x := u32_to_i32 x, y := u32_to_i32 y }

/-- Sequence of `(position, cell)` pairs produced by the iterator of
`Grid::iter_cell_pos`, consumed in order; `none` models a panic of the
`expect` at the first failing position. -/
def iter_cells (g : Grid) : List CellPos → Option (List (CellPos × Cell))
  | [] => some []
  | p :: ps =>
    match g.cell_expect p with
    | none => none
    | some c =>
      match iter_cells g ps with
      | none => none
      | some l => some ((p, c) :: l)

/-- Rust `Grid::iter_cell_pos` collected to a list (`none` models a panic of
the internal `expect` while the iterator is driven). -/
def Grid.iter_cell_pos (g : Grid) : Option (List (CellPos × Cell)) :=
  iter_cells g g.cartesian_positions

/-- Well-formedness of a grid value: the `u32` range of the two dimension
fields, and the data-model invariant `cell_count = width * height` that every
grid of the system maintains. -/
def Grid.WF (g : Grid) : Prop :=
  g.width < 4294967296 ∧ g.height < 4294967296 ∧
    g.cells.length = g.width * g.height

/-- Rust `randomize_cells`, applied to one grid, with the two draws of
`rng.gen_range(0..width)` / `rng.gen_range(0..height)` passed in as `rx`,
`ry` (as `u32` values; the construction of `CellPos` casts them with `as i32`).
It reads the wall state through `cell(..).unwrap()` (panic on `Err`), flips it
through `cell_mut(..).unwrap()`, and attaches a `CellChangeEvent(cell_pos)` to
the editor entity.  Returns the post-state grid and the emitted event, `none`
modelling a panic. -/
def randomize_cells (g : Grid) (rx ry : Nat) : Option (Grid × CellChangeEvent) :=
  let cell_pos : CellPos := { x := u32_to_i32 rx, y := u32_to_i32 ry }
  match g.cell cell_pos with
  | some (Except.ok c) =>
    match g.set_cell cell_pos { is_wall := !c.is_wall } with
    | some (Except.ok _, g2) => some (g2, { cell_pos := cell_pos })
    | _ => none
  | _ => none

/-! ### Helper lemmas about the numeric casts -/

/-- A `u32` value below `2^31` is unchanged by the `as i32` cast. -/
theorem u32_to_i32_of_lt {n : Nat} (h : n < 2147483648) : u32_to_i32 n = n := by
  have hm : n % 4294967296 = n := Nat.mod_eq_of_lt (by omega)
  simp [u32_to_i32, hm, h]

/-- If a signed value is nonnegative and below the `as i32` image of a `u32`
value, then the `u32` value reduces below `2^31` and dominates the value. -/
theorem lt_u32_to_i32 {x : Int} {n : Nat} (h0 : 0 ≤ x) (h : x < u32_to_i32 n) :
    n % 4294967296 < 2147483648 ∧ x.toNat < n % 4294967296 := by
  have hmod : n % 4294967296 < 4294967296 := Nat.mod_lt _ (by norm_num)
  unfold u32_to_i32 at h
  split at h
  · omega
  · omega

/-- A nonnegative `i32` value is unchanged by the `as u32` cast. -/
theorem i32_to_u32_eq_toNat {x : Int} (h0 : 0 ≤ x) (h : x < 4294967296) :
    i32_to_u32 x = x.toNat := by
  unfold i32_to_u32
  rw [Int.emod_eq_of_lt h0 (by omega)]

/-! ### Helper lemmas about `contains_pos` and `cell_pos_to_index` -/

theorem contains_pos_iff {g : Grid} {p : CellPos} :
    g.contains_pos p = true ↔
      0 ≤ p.x ∧ p.x < u32_to_i32 g.width ∧ 0 ≤ p.y ∧ p.y < u32_to_i32 g.height := by
  simp [Grid.contains_pos, Bool.and_eq_true, decide_eq_true_iff, and_assoc]

/-- Numeric consequences of a successful bounds check: the coordinates are
nonnegative and, read as naturals, below the reduced `u32` dimensions, which
are themselves below `2^31`. -/
theorem contains_pos_bounds {g : Grid} {p : CellPos} (h : g.contains_pos p = true) :
    0 ≤ p.x ∧ 0 ≤ p.y ∧
      g.width % 4294967296 < 2147483648 ∧ g.height % 4294967296 < 2147483648 ∧
      p.x.toNat < g.width % 4294967296 ∧ p.y.toNat < g.height % 4294967296 := by
  rcases contains_pos_iff.mp h with ⟨hx0, hxw, hy0, hyh⟩
  rcases lt_u32_to_i32 hx0 hxw with ⟨hw, hx⟩
  rcases lt_u32_to_i32 hy0 hyh with ⟨hh, hy⟩
  exact ⟨hx0, hy0, hw, hh, hx, hy⟩

/-- On a successful bounds check the computed index is the wrapped row-major
index of the reduced dimensions. -/
theorem cell_pos_to_index_of_contains {g : Grid} {p : CellPos}
    (h : g.contains_pos p = true) :
    g.cell_pos_to_index p =
      Except.ok ((g.width % 4294967296 * p.y.toNat + p.x.toNat) % 4294967296) := by
  rcases contains_pos_bounds h with ⟨hx0, hy0, hw, hh, hx, hy⟩
  unfold Grid.cell_pos_to_index
  rw [h]
  simp only [Bool.true_eq_false, if_false]
  rw [i32_to_u32_eq_toNat hx0 (by omega), i32_to_u32_eq_toNat hy0 (by omega)]

/-- A failed bounds check yields the `OutOfBounds` error carrying the position. -/
theorem cell_pos_to_index_of_not_contains {g : Grid} {p : CellPos}
    (h : g.contains_pos p = false) :
    g.cell_pos_to_index p = Except.error { cell_pos := p } := by
  unfold Grid.cell_pos_to_index
  rw [h]
  simp

/-- The unwrapped row-major index of an in-bounds position is below the
product of the reduced dimensions. -/
theorem index_lt_of_contains {g : Grid} {p : CellPos} (h : g.contains_pos p = true) :
    g.width % 4294967296 * p.y.toNat + p.x.toNat <
      g.width % 4294967296 * (g.height % 4294967296) := by
  rcases contains_pos_bounds h with ⟨-, -, -, -, hx, hy⟩
  calc g.width % 4294967296 * p.y.toNat + p.x.toNat
      < g.width % 4294967296 * p.y.toNat + g.width % 4294967296 := by omega
    _ = g.width % 4294967296 * (p.y.toNat + 1) := by ring
    _ ≤ g.width % 4294967296 * (g.height % 4294967296) :=
        Nat.mul_le_mul_left _ (by omega)

/-- Two's-complement row-major indexing is injective below the wrap threshold. -/
theorem index_inj {W x₁ y₁ x₂ y₂ : Nat} (hx₁ : x₁ < W) (hx₂ : x₂ < W)
    (h : W * y₁ + x₁ = W * y₂ + x₂) : x₁ = x₂ ∧ y₁ = y₂ := by
  have hW : 0 < W := by omega
  have e₁ : (W * y₁ + x₁) % W = x₁ := by rw [Nat.mul_add_mod]; exact Nat.mod_eq_of_lt hx₁
  have e₂ : (W * y₂ + x₂) % W = x₂ := by rw [Nat.mul_add_mod]; exact Nat.mod_eq_of_lt hx₂
  have d₁ : (W * y₁ + x₁) / W = y₁ := by
    rw [Nat.mul_add_div hW, Nat.div_eq_of_lt hx₁, Nat.add_zero]
  have d₂ : (W * y₂ + x₂) / W = y₂ := by
    rw [Nat.mul_add_div hW, Nat.div_eq_of_lt hx₂, Nat.add_zero]
  constructor
  · rw [← e₁, ← e₂, h]
  · rw [← d₁, ← d₂, h]

/-! ### Helper lemmas about `cell` and `set_cell` on well-formed grids -/

/-- Abbreviation for the index a well-formed grid computes for an in-bounds
position (the reduced dimensions agree with the fields). -/
theorem cell_pos_to_index_of_WF {g : Grid} {p : CellPos} (hwf : g.WF)
    (h : g.contains_pos p = true) :
    g.cell_pos_to_index p =
      Except.ok ((g.width * p.y.toNat + p.x.toNat) % 4294967296) := by
  rw [cell_pos_to_index_of_contains h, Nat.mod_eq_of_lt hwf.1]

/-- On a well-formed grid the wrapped index of an in-bounds position stays
inside the cell vector. -/
theorem index_lt_length_of_WF {g : Grid} {p : CellPos} (hwf : g.WF)
    (h : g.contains_pos p = true) :
    (g.width * p.y.toNat + p.x.toNat) % 4294967296 < g.cells.length := by
  have hb := index_lt_of_contains h
  rw [Nat.mod_eq_of_lt hwf.1] at hb
  have hmod : g.height % 4294967296 ≤ g.height := Nat.mod_le _ _
  have h₁ : g.width * p.y.toNat + p.x.toNat < g.width * g.height := by
    calc g.width * p.y.toNat + p.x.toNat
        < g.width * (g.height % 4294967296) := hb
      _ ≤ g.width * g.height := Nat.mul_le_mul_left _ hmod
  calc (g.width * p.y.toNat + p.x.toNat) % 4294967296
      ≤ g.width * p.y.toNat + p.x.toNat := Nat.mod_le _ _
    _ < g.width * g.height := h₁
    _ = g.cells.length := hwf.2.2.symm

/-- On a well-formed grid, reading an in-bounds position succeeds and returns
the stored cell at the wrapped index. -/
theorem cell_of_WF {g : Grid} {p : CellPos} (hwf : g.WF)
    (h : g.contains_pos p = true) :
    ∃ c, g.cell p = some (Except.ok c) ∧
      g.cells[(g.width * p.y.toNat + p.x.toNat) % 4294967296]? = some c := by
  have hi := index_lt_length_of_WF hwf h
  refine ⟨g.cells[(g.width * p.y.toNat + p.x.toNat) % 4294967296], ?_, ?_⟩
  · unfold Grid.cell
    rw [cell_pos_to_index_of_WF hwf h]
    simp [List.getElem?_eq_getElem hi]
  · exact List.getElem?_eq_getElem hi

/-- On a well-formed grid, writing an in-bounds position succeeds and replaces
exactly the slot at the wrapped index. -/
theorem set_cell_of_WF {g : Grid} {p : CellPos} {c : Cell} (hwf : g.WF)
    (h : g.contains_pos p = true) :
    g.set_cell p c =
      some (Except.ok Unit.unit,
        { g with cells := g.cells.set ((g.width * p.y.toNat + p.x.toNat) % 4294967296) c }) := by
  have hi := index_lt_length_of_WF hwf h
  unfold Grid.set_cell
  rw [cell_pos_to_index_of_WF hwf h]
  simp [hi]

/-- An out-of-bounds read returns the error carrying the position. -/
theorem cell_of_not_contains {g : Grid} {p : CellPos} (h : g.contains_pos p = false) :
    g.cell p = some (Except.error { cell_pos := p }) := by
  unfold Grid.cell
  rw [cell_pos_to_index_of_not_contains h]

/-- An out-of-bounds write returns the error carrying the position and leaves
the grid untouched. -/
theorem set_cell_of_not_contains {g : Grid} {p : CellPos} {c : Cell}
    (h : g.contains_pos p = false) :
    g.set_cell p c = some (Except.error { cell_pos := p }, g) := by
  unfold Grid.set_cell
  rw [cell_pos_to_index_of_not_contains h]

/-! ### Helper lemmas about the iterator -/

theorem iter_cells_cons_none {g : Grid} {p : CellPos} {ps : List CellPos}
    (h : g.cell_expect p = none) : iter_cells g (p :: ps) = none := by
  simp [iter_cells, h]

/-- If every position of the list can be read without panic, driving the
iterator yields exactly those positions, each paired with its cell. -/
theorem iter_cells_some_of {g : Grid} {ps : List CellPos}
    (h : ∀ p ∈ ps, (g.cell_expect p).isSome) :
    ∃ l, iter_cells g ps = some l ∧ l.map Prod.fst = ps ∧
      ∀ q ∈ l, g.cell_expect q.1 = some q.2 := by
  induction ps with
  | nil => exact ⟨[], rfl, rfl, by simp⟩
  | cons p ps ih =>
    obtain ⟨c, hc⟩ := Option.isSome_iff_exists.mp (h p (by simp))
    obtain ⟨l, hl, hmap, hall⟩ := ih (fun q hq => h q (by simp [hq]))
    refine ⟨(p, c) :: l, by simp [iter_cells, hc, hl], by simp [hmap], ?_⟩
    intro q hq
    rcases List.mem_cons.mp hq with hq | hq
    · subst hq; exact hc
    · exact hall q hq

/-- Driving the iterator to completion visits the argument positions in order. -/
theorem iter_cells_map_fst {g : Grid} {ps : List CellPos} {l : List (CellPos × Cell)}
    (h : iter_cells g ps = some l) : l.map Prod.fst = ps := by
  induction ps generalizing l with
  | nil =>
    simp only [iter_cells, Option.some_inj] at h
    subst h; rfl
  | cons p ps ih =>
    rw [iter_cells] at h
    cases he : g.cell_expect p with
    | none => rw [he] at h; exact absurd h (by simp)
    | some c =>
      rw [he] at h
      cases hit : iter_cells g ps with
      | none => rw [hit] at h; exact absurd h (by simp)
      | some l' =>
        rw [hit] at h
        simp only [Option.some_inj] at h
        subst h
        simp [ih hit]

/-- Every pair produced by a completed iteration carries the cell the grid
reads back at that position. -/
theorem iter_cells_mem {g : Grid} {ps : List CellPos} {l : List (CellPos × Cell)}
    (h : iter_cells g ps = some l) : ∀ q ∈ l, g.cell_expect q.1 = some q.2 := by
  induction ps generalizing l with
  | nil =>
    simp only [iter_cells, Option.some_inj] at h
    subst h; simp
  | cons p ps ih =>
    rw [iter_cells] at h
    cases he : g.cell_expect p with
    | none => rw [he] at h; exact absurd h (by simp)
    | some c =>
      rw [he] at h
      cases hit : iter_cells g ps with
      | none => rw [hit] at h; exact absurd h (by simp)
      | some l' =>
        rw [hit] at h
        simp only [Option.some_inj] at h
        subst h
        intro q hq
        rcases List.mem_cons.mp hq with hq | hq
        · subst hq; exact he
        · exact ih hit q hq

/-- A completed iteration forces every visited position to read back without
panic. -/
theorem iter_cells_forall_isSome {g : Grid} {ps : List CellPos}
    {l : List (CellPos × Cell)} (h : iter_cells g ps = some l) :
    ∀ p ∈ ps, (g.cell_expect p).isSome := by
  induction ps generalizing l with
  | nil => simp
  | cons p ps ih =>
    rw [iter_cells] at h
    cases he : g.cell_expect p with
    | none => rw [he] at h; exact absurd h (by simp)
    | some c =>
      rw [he] at h
      cases hit : iter_cells g ps with
      | none => rw [hit] at h; exact absurd h (by simp)
      | some l' =>
        intro q hq
        rcases List.mem_cons.mp hq with hq | hq
        · subst hq; simp [he]
        · exact ih hit q hq

/-! ### Helper lemmas about the iteration order -/

/-- When both reduced dimensions fit in an `i32`, the casts inside the
position list are the identity. -/
theorem cartesian_positions_eq {g : Grid}
    (hW : g.width % 4294967296 ≤ 2147483648)
    (hH : g.height % 4294967296 ≤ 2147483648) :
    g.cartesian_positions =
      (List.range (g.width % 4294967296)).flatMap fun (a : Nat) =>
        (List.range (g.height % 4294967296)).map fun (b : Nat) =>
          { x := Int.ofNat a, y := Int.ofNat b } := by
  unfold Grid.cartesian_positions
  rw [List.flatMap_def, List.flatMap_def]
  congr 1
  apply List.map_congr_left
  intro a ha
  apply List.map_congr_left
  intro b hb
  rw [List.mem_range] at ha hb
  rw [u32_to_i32_of_lt (by omega), u32_to_i32_of_lt (by omega)]
  rfl

/-- The position list enumerates `width * height` entries (reduced `u32`
dimensions). -/
theorem length_cartesian_positions (g : Grid) :
    g.cartesian_positions.length =
      g.width % 4294967296 * (g.height % 4294967296) := by
  unfold Grid.cartesian_positions
  rw [List.length_flatMap]
  have hmap : List.map
      (List.length ∘ fun x => (List.range (g.height % 4294967296)).map fun y =>
        ({ x := u32_to_i32 x, y := u32_to_i32 y } : CellPos))
      (List.range (g.width % 4294967296)) =
      List.map (fun _ => g.height % 4294967296)
        (List.range (g.width % 4294967296)) := by
    apply List.map_congr_left
    intro a _
    simp
  rw [hmap, List.map_const', List.length_range, List.sum_replicate, smul_eq_mul]

/-- The flattened x-outer y-inner enumeration is strictly increasing in the
lexicographic order on `(x, y)`. -/
theorem pairwise_lex_flatMap (H : Nat) (l : List Nat) (hl : l.Pairwise (· < ·)) :
    (l.flatMap fun (a : Nat) => (List.range H).map fun (b : Nat) =>
        ({ x := Int.ofNat a, y := Int.ofNat b } : CellPos)).Pairwise
      (fun p q => p.x < q.x ∨ (p.x = q.x ∧ p.y < q.y)) := by
  induction l with
  | nil => simp
  | cons a l ih =>
    rw [List.flatMap_cons, List.pairwise_append]
    rcases List.pairwise_cons.mp hl with ⟨ha, hl'⟩
    refine ⟨?_, ih hl', ?_⟩
    · refine List.pairwise_map.mpr ?_
      apply (List.pairwise_lt_range H).imp
      intro b₁ b₂ hb
      right
      refine ⟨rfl, ?_⟩
      exact Int.ofNat_lt.mpr hb
    · intro q hq r hr
      rcases List.mem_map.mp hq with ⟨b, -, hqe⟩
      rcases List.mem_flatMap.mp hr with ⟨a', ha', hr'⟩
      rcases List.mem_map.mp hr' with ⟨b', -, hre⟩
      subst hqe; subst hre
      left
      exact Int.ofNat_lt.mpr (ha a' ha')

/-- The position enumeration never repeats a position (reduced dimensions in
`i32` range). -/
theorem nodup_cartesian_positions {g : Grid}
    (hW : g.width % 4294967296 ≤ 2147483648)
    (hH : g.height % 4294967296 ≤ 2147483648) :
    g.cartesian_positions.Nodup := by
  rw [cartesian_positions_eq hW hH]
  have hp := pairwise_lex_flatMap (g.height % 4294967296)
    (List.range (g.width % 4294967296)) (List.pairwise_lt_range _)
  apply hp.imp
  intro p q hpq heq
  subst heq
  rcases hpq with h | ⟨-, h⟩ <;> exact lt_irrefl _ h

/-- Membership in the position enumeration, with identity casts. -/
theorem mem_cartesian_positions {g : Grid} {p : CellPos}
    (hW : g.width % 4294967296 ≤ 2147483648)
    (hH : g.height % 4294967296 ≤ 2147483648) :
    p ∈ g.cartesian_positions ↔
      ∃ a, a < g.width % 4294967296 ∧ ∃ b, b < g.height % 4294967296 ∧
        p = { x := Int.ofNat a, y := Int.ofNat b } := by
  rw [cartesian_positions_eq hW hH]
  simp only [List.mem_flatMap, List.mem_map, List.mem_range]
  constructor
  · rintro ⟨a, ha, b, hb, hpe⟩
    exact ⟨a, ha, b, hb, hpe.symm⟩
  · rintro ⟨a, ha, b, hb, hpe⟩
    exact ⟨a, ha, b, hb, hpe.symm⟩

/-! ### Bridging lemmas -/

theorem u32_to_i32_of_mod_lt {n : Nat} (h : n % 4294967296 < 2147483648) :
    u32_to_i32 n = ((n % 4294967296 : Nat) : Int) := by
  simp [u32_to_i32, h]

/-- Coordinates below the reduced (`i32`-representable) dimensions pass the
bounds check. -/
theorem contains_pos_of_coords {g : Grid} {a b : Nat}
    (hW : g.width % 4294967296 < 2147483648)
    (hH : g.height % 4294967296 < 2147483648)
    (ha : a < g.width % 4294967296) (hb : b < g.height % 4294967296) :
    g.contains_pos { x := Int.ofNat a, y := Int.ofNat b } = true := by
  rw [contains_pos_iff, u32_to_i32_of_mod_lt hW, u32_to_i32_of_mod_lt hH]
  refine ⟨?_, ?_, ?_, ?_⟩
  · exact Int.ofNat_nonneg a
  · exact Int.ofNat_lt.mpr ha
  · exact Int.ofNat_nonneg b
  · exact Int.ofNat_lt.mpr hb

/-- On a well-formed grid an in-bounds position survives the iterator's
`expect`. -/
theorem cell_expect_of_WF {g : Grid} {p : CellPos} (hwf : g.WF)
    (h : g.contains_pos p = true) :
    ∃ c, g.cell_expect p = some c ∧ g.cell p = some (Except.ok c) := by
  obtain ⟨c, hc, -⟩ := cell_of_WF hwf h
  exact ⟨c, by simp [Grid.cell_expect, hc], hc⟩

/-- A position that survives the iterator's `expect` passed the bounds check
and reads back the same cell. -/
theorem cell_expect_eq_some {g : Grid} {p : CellPos} {c : Cell}
    (h : g.cell_expect p = some c) :
    g.contains_pos p = true ∧ g.cell p = some (Except.ok c) := by
  by_cases hcp : g.contains_pos p = true
  · refine ⟨hcp, ?_⟩
    unfold Grid.cell_expect at h
    cases hc : g.cell p with
    | none => rw [hc] at h; exact absurd h (by simp)
    | some r =>
      cases r with
      | error e => rw [hc] at h; exact absurd h (by simp)
      | ok c' =>
        rw [hc] at h
        simp only [Option.some_inj] at h
        rw [h]
  · have hfalse : g.contains_pos p = false := by
      cases hv : g.contains_pos p
      · rfl
      · exact absurd hv hcp
    rw [Grid.cell_expect, cell_of_not_contains hfalse] at h
    exact absurd h (by simp)

/-- Cell count allocated by `Grid::new` when `width*height` does not overflow
a `u32`. -/
theorem new_cells_length {w h : Nat} (hov : w * h < 4294967296) :
    (Grid.new w h).cells.length = w * h := by
  have hc : h * w < 4294967296 := by rw [Nat.mul_comm]; exact hov
  show (List.replicate (h * w % 4294967296) ({ is_wall := false } : Cell)).length = w * h
  rw [List.length_replicate, Nat.mod_eq_of_lt hc, Nat.mul_comm]

/-- A freshly constructed grid with non-overflowing dimensions is well-formed. -/
theorem new_WF {w h : Nat} (hw : w < 4294967296) (hh : h < 4294967296)
    (hov : w * h < 4294967296) : (Grid.new w h).WF :=
  ⟨hw, hh, new_cells_length hov⟩

/-- Every cell allocated by `Grid::new` is non-wall. -/
theorem new_cells_nonwall {w h : Nat} {c : Cell} (hc : c ∈ (Grid.new w h).cells) :
    c.is_wall = false := by
  simp only [Grid.new, List.mem_replicate] at hc
  rw [hc.2]

/-- When a dimension reduces to zero, no position passes the bounds check. -/
theorem contains_pos_of_zero {g : Grid}
    (h : g.width % 4294967296 = 0 ∨ g.height % 4294967296 = 0) (p : CellPos) :
    g.contains_pos p = false := by
  cases hv : g.contains_pos p
  · rfl
  · exfalso
    rcases contains_pos_bounds hv with ⟨-, -, -, -, hx, hy⟩
    omega

/-- When a dimension reduces to zero, the position enumeration is empty. -/
theorem cartesian_positions_of_zero {g : Grid}
    (h : g.width % 4294967296 = 0 ∨ g.height % 4294967296 = 0) :
    g.cartesian_positions = [] := by
  unfold Grid.cartesian_positions
  rcases h with h | h <;> simp [h]

/-- Setting one cell preserves well-formedness. -/
theorem WF_set {g : Grid} {i : Nat} {c : Cell} (hwf : g.WF) :
    (Grid.mk g.width g.height (g.cells.set i c)).WF :=
  ⟨hwf.1, hwf.2.1, by simp [List.length_set, hwf.2.2]⟩

/-! ### Claim theorems -/

/-- C3: for every grid and every position failing the bounds check,
`set_cell` returns `Err(OutOfBounds)` carrying the position and leaves the
grid completely unchanged (same width, height and cell sequence), and `cell`
fails with the same `OutOfBounds` error. -/
theorem c3_out_of_bounds_rejected_without_mutation (g : Grid) (p : CellPos)
    (c : Cell) (h : g.contains_pos p = false) :
    g.set_cell p c = some (Except.error { cell_pos := p }, g) ∧
      g.cell p = some (Except.error { cell_pos := p }) :=
  ⟨set_cell_of_not_contains h, cell_of_not_contains h⟩

/-- Witness for C3 at the 2x2 grid and position (5, 0). -/
theorem c3_witness :
    (Grid.new 2 2).contains_pos { x := 5, y := 0 } = false ∧
      ((Grid.new 2 2).set_cell { x := 5, y := 0 } { is_wall := true } =
          some (Except.error { cell_pos := { x := 5, y := 0 } }, Grid.new 2 2) ∧
        (Grid.new 2 2).cell { x := 5, y := 0 } =
          some (Except.error { cell_pos := { x := 5, y := 0 } })) :=
  ⟨by decide,
    c3_out_of_bounds_rejected_without_mutation (Grid.new 2 2)
      { x := 5, y := 0 } { is_wall := true } (by decide)⟩

/-- C4: on every well-formed grid, for every position passing the bounds
check and every cell value, `set_cell` succeeds and a subsequent `cell` at
the same position returns `Ok` of an equal cell. -/
theorem c4_set_cell_roundtrip (g : Grid) (p : CellPos) (c : Cell)
    (hwf : g.WF) (h : g.contains_pos p = true) :
    ∃ g2, g.set_cell p c = some (Except.ok Unit.unit, g2) ∧
      g2.cell p = some (Except.ok c) := by
  have hi := index_lt_length_of_WF hwf h
  refine ⟨_, set_cell_of_WF hwf h, ?_⟩
  have hwf2 : (Grid.mk g.width g.height
      (g.cells.set ((g.width * p.y.toNat + p.x.toNat) % 4294967296) c)).WF :=
    WF_set hwf
  have h2 : (Grid.mk g.width g.height
      (g.cells.set ((g.width * p.y.toNat + p.x.toNat) % 4294967296) c)).contains_pos
        p = true := h
  show (Grid.mk g.width g.height
      (g.cells.set ((g.width * p.y.toNat + p.x.toNat) % 4294967296) c)).cell p =
    some (Except.ok c)
  unfold Grid.cell
  rw [cell_pos_to_index_of_WF hwf2 h2]
  have hset : (g.cells.set ((g.width * p.y.toNat + p.x.toNat) % 4294967296)
      c)[(g.width * p.y.toNat + p.x.toNat) % 4294967296]? = some c :=
    List.getElem?_set_self hi
  simp [hset]

/-- Witness for C4 at the 3x2 grid, position (2, 1), wall cell. -/
theorem c4_witness :
    (Grid.new 3 2).WF ∧ (Grid.new 3 2).contains_pos { x := 2, y := 1 } = true ∧
      ∃ g2, (Grid.new 3 2).set_cell { x := 2, y := 1 } { is_wall := true } =
          some (Except.ok Unit.unit, g2) ∧
        g2.cell { x := 2, y := 1 } = some (Except.ok { is_wall := true }) :=
  ⟨⟨by decide, by decide, by decide⟩, by decide,
    c4_set_cell_roundtrip (Grid.new 3 2) { x := 2, y := 1 } { is_wall := true }
      ⟨by decide, by decide, by decide⟩ (by decide)⟩

/-- The mathematical in-range condition matches the code's bounds check when
both dimensions are below `2^31`. -/
theorem contains_pos_iff_math {g : Grid} {p : CellPos}
    (hw : g.width < 2147483648) (hh : g.height < 2147483648) :
    g.contains_pos p = true ↔
      0 ≤ p.x ∧ p.x < (g.width : Int) ∧ 0 ≤ p.y ∧ p.y < (g.height : Int) := by
  rw [contains_pos_iff, u32_to_i32_of_lt hw, u32_to_i32_of_lt hh]

/-- C1 (amended): provided both dimensions are below `2^31` (so the `as i32`
comparisons in the bounds check are exact) and `width*height ≤ 2^32` (so the
`u32` index arithmetic cannot wrap), `cell_pos_to_index` returns
`Ok(width*y + x)` with the result strictly below `width*height` whenever
`0 ≤ x < width` and `0 ≤ y < height`, and returns `Err(OutOfBounds)` carrying
exactly the position otherwise. -/
theorem c1_cell_pos_to_index (g : Grid) (p : CellPos)
    (hw : g.width < 2147483648) (hh : g.height < 2147483648)
    (hov : g.width * g.height ≤ 4294967296) :
    (0 ≤ p.x ∧ p.x < (g.width : Int) ∧ 0 ≤ p.y ∧ p.y < (g.height : Int) →
      g.cell_pos_to_index p = Except.ok (g.width * p.y.toNat + p.x.toNat) ∧
        g.width * p.y.toNat + p.x.toNat < g.width * g.height) ∧
    (¬(0 ≤ p.x ∧ p.x < (g.width : Int) ∧ 0 ≤ p.y ∧ p.y < (g.height : Int)) →
      g.cell_pos_to_index p = Except.error { cell_pos := p }) := by
  have hwN : g.width % 4294967296 = g.width := Nat.mod_eq_of_lt (by omega)
  have hhN : g.height % 4294967296 = g.height := Nat.mod_eq_of_lt (by omega)
  constructor
  · intro hmath
    have hc : g.contains_pos p = true := (contains_pos_iff_math hw hh).mpr hmath
    have hlt : g.width * p.y.toNat + p.x.toNat < g.width * g.height := by
      have h0 := index_lt_of_contains hc
      rw [hwN, hhN] at h0
      exact h0
    refine ⟨?_, hlt⟩
    rw [cell_pos_to_index_of_contains hc, hwN,
      Nat.mod_eq_of_lt (Nat.lt_of_lt_of_le hlt hov)]
  · intro hmath
    have hc : g.contains_pos p = false := by
      cases hv : g.contains_pos p
      · rfl
      · exact absurd ((contains_pos_iff_math hw hh).mp hv) hmath
    exact cell_pos_to_index_of_not_contains hc

/-- Counterexample to C1 as stated: on a grid of width `2^31` and height 1
the position (0, 0) satisfies `0 ≤ x < width` and `0 ≤ y < height`, yet
`cell_pos_to_index` returns `Err` (the `width as i32` cast wraps to a
negative bound); and on a well-formed `2^30 x 8` grid the valid position
(0, 4) yields `Ok(0)` instead of `Ok(width*4 + 0) = Ok(2^32)` (the `u32`
multiplication wraps). -/
theorem c1_counterexample :
    ((0 : Int) ≤ 0 ∧ (0 : Int) < ((Grid.new 2147483648 1).width : Int) ∧
      (0 : Int) ≤ 0 ∧ (0 : Int) < ((Grid.new 2147483648 1).height : Int)) ∧
    (Grid.new 2147483648 1).cell_pos_to_index { x := 0, y := 0 } =
      Except.error { cell_pos := { x := 0, y := 0 } } ∧
    ((0 : Int) ≤ 0 ∧ (0 : Int) < ((1073741824 : Nat) : Int) ∧
      (0 : Int) ≤ 4 ∧ (4 : Int) < ((8 : Nat) : Int)) ∧
    (Grid.mk 1073741824 8
        (List.replicate 8589934592 { is_wall := false })).cell_pos_to_index
      { x := 0, y := 4 } = Except.ok 0 ∧
    (1073741824 * 4 + 0 : Nat) ≠ 0 := by
  exact ⟨by decide, by rfl, by decide, by rfl, by decide⟩

/-- Witness for C1 at the 3x2 grid and position (1, 1). -/
theorem c1_witness :
    (Grid.new 3 2).cell_pos_to_index { x := 1, y := 1 } = Except.ok 4 ∧
      4 < 3 * 2 :=
  (c1_cell_pos_to_index (Grid.new 3 2) { x := 1, y := 1 }
    (by decide) (by decide) (by decide)).1 (by decide)

/-- Positions agreeing on both coordinates are equal. -/
theorem cellPos_ext {p q : CellPos} (hx : p.x = q.x) (hy : p.y = q.y) : p = q := by
  cases p with
  | mk a b =>
    cases q with
    | mk c d =>
      rw [show a = c from hx, show b = d from hy]

/-- C2 (amended): provided `width*height ≤ 2^32` (no `u32` wrap in the index
arithmetic), any two distinct positions passing the bounds check receive
distinct indices from `cell_pos_to_index`, both successfully. -/
theorem c2_index_injective (g : Grid) (p₁ p₂ : CellPos)
    (hw : g.width < 4294967296) (hh : g.height < 4294967296)
    (hov : g.width * g.height ≤ 4294967296)
    (h₁ : g.contains_pos p₁ = true) (h₂ : g.contains_pos p₂ = true)
    (hne : p₁ ≠ p₂) :
    ∃ i₁ i₂, g.cell_pos_to_index p₁ = Except.ok i₁ ∧
      g.cell_pos_to_index p₂ = Except.ok i₂ ∧ i₁ ≠ i₂ := by
  have hwN : g.width % 4294967296 = g.width := Nat.mod_eq_of_lt hw
  have hhN : g.height % 4294967296 = g.height := Nat.mod_eq_of_lt hh
  obtain ⟨hx₁0, hy₁0, -, -, hx₁, hy₁⟩ := contains_pos_bounds h₁
  obtain ⟨hx₂0, hy₂0, -, -, hx₂, hy₂⟩ := contains_pos_bounds h₂
  rw [hwN] at hx₁ hx₂
  rw [hhN] at hy₁ hy₂
  have hlt₁ : g.width * p₁.y.toNat + p₁.x.toNat < g.width * g.height := by
    have h0 := index_lt_of_contains h₁
    rw [hwN, hhN] at h0
    exact h0
  have hlt₂ : g.width * p₂.y.toNat + p₂.x.toNat < g.width * g.height := by
    have h0 := index_lt_of_contains h₂
    rw [hwN, hhN] at h0
    exact h0
  refine ⟨g.width * p₁.y.toNat + p₁.x.toNat, g.width * p₂.y.toNat + p₂.x.toNat,
    ?_, ?_, ?_⟩
  · rw [cell_pos_to_index_of_contains h₁, hwN,
      Nat.mod_eq_of_lt (Nat.lt_of_lt_of_le hlt₁ hov)]
  · rw [cell_pos_to_index_of_contains h₂, hwN,
      Nat.mod_eq_of_lt (Nat.lt_of_lt_of_le hlt₂ hov)]
  · intro heq
    rcases index_inj hx₁ hx₂ heq with ⟨hx, hy⟩
    apply hne
    apply cellPos_ext
    · rw [← Int.toNat_of_nonneg hx₁0, ← Int.toNat_of_nonneg hx₂0, hx]
    · rw [← Int.toNat_of_nonneg hy₁0, ← Int.toNat_of_nonneg hy₂0, hy]

/-- Counterexample to C2 as stated: on a well-formed `2^30 x 8` grid the
distinct valid positions (0, 0) and (0, 4) both map to index 0, because the
`u32` product `width * 4` wraps to 0. -/
theorem c2_counterexample :
    (Grid.mk 1073741824 8 (List.replicate 8589934592 { is_wall := false })).WF ∧
    (Grid.mk 1073741824 8
        (List.replicate 8589934592 { is_wall := false })).contains_pos
      { x := 0, y := 0 } = true ∧
    (Grid.mk 1073741824 8
        (List.replicate 8589934592 { is_wall := false })).contains_pos
      { x := 0, y := 4 } = true ∧
    ({ x := 0, y := 0 } : CellPos) ≠ { x := 0, y := 4 } ∧
    (Grid.mk 1073741824 8
        (List.replicate 8589934592 { is_wall := false })).cell_pos_to_index
      { x := 0, y := 0 } = Except.ok 0 ∧
    (Grid.mk 1073741824 8
        (List.replicate 8589934592 { is_wall := false })).cell_pos_to_index
      { x := 0, y := 4 } = Except.ok 0 := by
  refine ⟨⟨by norm_num, by norm_num, ?_⟩, by decide, by decide, by decide,
    by rfl, by rfl⟩
  rw [List.length_replicate]
  norm_num

/-- Witness for C2 (amended) at the 3x2 grid, positions (1, 0) and (0, 1). -/
theorem c2_witness :
    ∃ i₁ i₂, (Grid.new 3 2).cell_pos_to_index { x := 1, y := 0 } = Except.ok i₁ ∧
      (Grid.new 3 2).cell_pos_to_index { x := 0, y := 1 } = Except.ok i₂ ∧
      i₁ ≠ i₂ :=
  c2_index_injective (Grid.new 3 2) { x := 1, y := 0 } { x := 0, y := 1 }
    (by decide) (by decide) (by decide) (by decide) (by decide) (by decide)

/-- C5 (amended): for every width and height with `width*height < 2^32` (no
`u32` overflow in the allocation), `Grid::new` produces `width*height` cells,
all non-wall; and when width or height is 0 the result is a valid empty grid:
no cells, bounds check false for every input, empty iteration. -/
theorem c5_new_grid (w h : Nat) (hov : w * h < 4294967296) :
    (Grid.new w h).cells.length = w * h ∧
      (∀ c ∈ (Grid.new w h).cells, c.is_wall = false) ∧
      (w = 0 ∨ h = 0 →
        (Grid.new w h).cells = [] ∧
          (∀ p, (Grid.new w h).contains_pos p = false) ∧
          (Grid.new w h).iter_cell_pos = some []) := by
  refine ⟨new_cells_length hov, fun c hc => new_cells_nonwall hc, ?_⟩
  intro hz
  have hz' : (Grid.new w h).width % 4294967296 = 0 ∨
      (Grid.new w h).height % 4294967296 = 0 := by
    rcases hz with hz | hz
    · left
      show w % 4294967296 = 0
      rw [hz]
    · right
      show h % 4294967296 = 0
      rw [hz]
  refine ⟨?_, contains_pos_of_zero hz', ?_⟩
  · have hl : (Grid.new w h).cells.length = 0 := by
      rw [new_cells_length hov]
      rcases hz with hz | hz <;> rw [hz] <;> omega
    exact List.length_eq_zero.mp hl
  · show iter_cells (Grid.new w h) (Grid.new w h).cartesian_positions = some []
    rw [cartesian_positions_of_zero hz']
    rfl

/-- Counterexample to C5 as stated: `Grid::new(2^31, 3)` allocates
`3 * 2^31 mod 2^32 = 2^31` cells, not `2^31 * 3` (the `u32` product
overflows; a debug build panics instead). -/
theorem c5_counterexample :
    (Grid.new 2147483648 3).cells.length ≠ 2147483648 * 3 := by
  show (List.replicate (3 * 2147483648 % 4294967296)
    ({ is_wall := false } : Cell)).length ≠ 2147483648 * 3
  rw [List.length_replicate]
  norm_num

/-- Witness for C5 at width 0, height 5, exercising the empty-grid branch. -/
theorem c5_witness :
    (Grid.new 0 5).cells.length = 0 * 5 ∧
      (∀ c ∈ (Grid.new 0 5).cells, c.is_wall = false) ∧
      (0 = 0 ∨ 5 = 0 →
        (Grid.new 0 5).cells = [] ∧
          (∀ p, (Grid.new 0 5).contains_pos p = false) ∧
          (Grid.new 0 5).iter_cell_pos = some []) :=
  c5_new_grid 0 5 (by decide)

/-- C6 (amended): on every well-formed grid whose dimensions are below `2^31`
(so the `as i32` casts in the bounds check are exact), the iteration yields
exactly `width*height` pairs, the yielded positions are pairwise distinct,
every yielded position passes the bounds check, and each yielded cell is the
grid's current cell at that position. -/
theorem c6_iterate_positions (g : Grid) (hwf : g.WF)
    (hw : g.width < 2147483648) (hh : g.height < 2147483648) :
    ∃ l, g.iter_cell_pos = some l ∧ l.length = g.width * g.height ∧
      (l.map Prod.fst).Nodup ∧
      ∀ q ∈ l, g.contains_pos q.1 = true ∧ g.cell q.1 = some (Except.ok q.2) := by
  have hwN : g.width % 4294967296 = g.width := Nat.mod_eq_of_lt (by omega)
  have hhN : g.height % 4294967296 = g.height := Nat.mod_eq_of_lt (by omega)
  have hall : ∀ p ∈ g.cartesian_positions, (g.cell_expect p).isSome := by
    intro p hp
    rw [mem_cartesian_positions (by omega) (by omega)] at hp
    obtain ⟨a, ha, b, hb, rfl⟩ := hp
    have hc := contains_pos_of_coords (by omega) (by omega) ha hb
    obtain ⟨c, hce, -⟩ := cell_expect_of_WF hwf hc
    exact Option.isSome_iff_exists.mpr ⟨c, hce⟩
  obtain ⟨l, hl, hmap, hcells⟩ := iter_cells_some_of hall
  refine ⟨l, hl, ?_, ?_, ?_⟩
  · have hlen := congrArg List.length hmap
    rw [List.length_map] at hlen
    rw [hlen, length_cartesian_positions, hwN, hhN]
  · rw [hmap]
    exact nodup_cartesian_positions (by omega) (by omega)
  · intro q hq
    exact cell_expect_eq_some (hcells q hq)

/-- Counterexample to C6 as stated: on the well-formed grid
`Grid::new(2^31, 1)` the iteration panics at its first element — the
`width as i32` cast makes `contains_pos` reject every position, so the
internal `expect` fails — instead of yielding `2^31` valid pairs. -/
theorem c6_counterexample :
    (Grid.new 2147483648 1).WF ∧ (Grid.new 2147483648 1).iter_cell_pos = none := by
  constructor
  · refine ⟨by decide, by decide, ?_⟩
    show (List.replicate (1 * 2147483648 % 4294967296)
      ({ is_wall := false } : Cell)).length = 2147483648 * 1
    rw [List.length_replicate]
  · show iter_cells (Grid.new 2147483648 1)
      (Grid.new 2147483648 1).cartesian_positions = none
    have hcart : (Grid.new 2147483648 1).cartesian_positions =
        ({ x := 0, y := 0 } : CellPos) ::
          ((List.range' 1 2147483647).flatMap fun x =>
            (List.range (1 % 4294967296)).map fun y =>
              ({ x := u32_to_i32 x, y := u32_to_i32 y } : CellPos)) := by
      show (List.range (2147483648 % 4294967296)).flatMap
          (fun x => (List.range (1 % 4294967296)).map fun y =>
            ({ x := u32_to_i32 x, y := u32_to_i32 y } : CellPos)) = _
      rw [show (2147483648 % 4294967296 : Nat) = 2147483647 + 1 from by norm_num,
        List.range_eq_range', List.range'_succ, List.flatMap_cons]
      have hhead : (List.range (1 % 4294967296)).map
          (fun y => ({ x := u32_to_i32 0, y := u32_to_i32 y } : CellPos)) =
          [{ x := 0, y := 0 }] := by decide
      rw [hhead, List.singleton_append]
    rw [hcart]
    exact iter_cells_cons_none (by decide)

/-- Witness for C6 (amended) at the 2x2 grid. -/
theorem c6_witness :
    ∃ l, (Grid.new 2 2).iter_cell_pos = some l ∧ l.length = 2 * 2 ∧
      (l.map Prod.fst).Nodup ∧
      ∀ q ∈ l, (Grid.new 2 2).contains_pos q.1 = true ∧
        (Grid.new 2 2).cell q.1 = some (Except.ok q.2) :=
  c6_iterate_positions (Grid.new 2 2) ⟨by decide, by decide, by decide⟩
    (by decide) (by decide)

/-- C7 (amended): whenever the iteration completes, the positions are
produced with the outer loop over x and the inner loop over y: along the
yielded sequence the positions strictly increase in the lexicographic order
on `(x, y)` — column-major with respect to the storage index
`width*y + x`, not row-major. -/
theorem c7_iteration_order (g : Grid) (l : List (CellPos × Cell))
    (h : g.iter_cell_pos = some l) :
    (l.map Prod.fst).Pairwise
      (fun p q => p.x < q.x ∨ (p.x = q.x ∧ p.y < q.y)) := by
  have h' : iter_cells g g.cartesian_positions = some l := h
  rw [iter_cells_map_fst h']
  cases hc : g.cartesian_positions with
  | nil => exact List.Pairwise.nil
  | cons p ps =>
    have hpmem : p ∈ g.cartesian_positions := by
      rw [hc]
      exact List.mem_cons_self p ps
    obtain ⟨c, hce⟩ :=
      Option.isSome_iff_exists.mp (iter_cells_forall_isSome h' p hpmem)
    obtain ⟨hcp, -⟩ := cell_expect_eq_some hce
    obtain ⟨-, -, hW, hH, -, -⟩ := contains_pos_bounds hcp
    rw [← hc, cartesian_positions_eq (le_of_lt hW) (le_of_lt hH)]
    exact pairwise_lex_flatMap _ _ (List.pairwise_lt_range _)

/-- Counterexample to C7 as stated: on the 2x2 grid the iteration yields
(0,1) (storage index 2) before (1,0) (storage index 1), so the pairs are not
produced in increasing order of the storage index `width*y + x`. -/
theorem c7_counterexample :
    (Grid.new 2 2).iter_cell_pos = some
        [({ x := 0, y := 0 }, { is_wall := false }),
          ({ x := 0, y := 1 }, { is_wall := false }),
          ({ x := 1, y := 0 }, { is_wall := false }),
          ({ x := 1, y := 1 }, { is_wall := false })] ∧
      (Grid.new 2 2).cell_pos_to_index { x := 0, y := 1 } = Except.ok 2 ∧
      (Grid.new 2 2).cell_pos_to_index { x := 1, y := 0 } = Except.ok 1 :=
  ⟨by decide, by rfl, by rfl⟩

/-- Witness for C7 (amended) at the 2x2 grid. -/
theorem c7_witness :
    (([({ x := 0, y := 0 }, { is_wall := false }),
        ({ x := 0, y := 1 }, { is_wall := false }),
        ({ x := 1, y := 0 }, { is_wall := false }),
        ({ x := 1, y := 1 }, { is_wall := false })] :
          List (CellPos × Cell)).map Prod.fst).Pairwise
      (fun p q => p.x < q.x ∨ (p.x = q.x ∧ p.y < q.y)) :=
  c7_iteration_order (Grid.new 2 2)
    [({ x := 0, y := 0 }, { is_wall := false }),
      ({ x := 0, y := 1 }, { is_wall := false }),
      ({ x := 1, y := 0 }, { is_wall := false }),
      ({ x := 1, y := 1 }, { is_wall := false })] (by decide)

/-- Distinct in-bounds positions receive distinct wrapped indices when
`width*height ≤ 2^32`. -/
theorem index_ne_of_ne {g : Grid} {p q : CellPos}
    (hw : g.width < 4294967296) (hh : g.height < 4294967296)
    (hov : g.width * g.height ≤ 4294967296)
    (hp : g.contains_pos p = true) (hq : g.contains_pos q = true)
    (hne : q ≠ p) :
    (g.width * q.y.toNat + q.x.toNat) % 4294967296 ≠
      (g.width * p.y.toNat + p.x.toNat) % 4294967296 := by
  have hwN : g.width % 4294967296 = g.width := Nat.mod_eq_of_lt hw
  have hhN : g.height % 4294967296 = g.height := Nat.mod_eq_of_lt hh
  obtain ⟨hqx0, hqy0, -, -, hqx, -⟩ := contains_pos_bounds hq
  obtain ⟨hpx0, hpy0, -, -, hpx, -⟩ := contains_pos_bounds hp
  rw [hwN] at hqx hpx
  have hltq : g.width * q.y.toNat + q.x.toNat < g.width * g.height := by
    have h0 := index_lt_of_contains hq
    rw [hwN, hhN] at h0
    exact h0
  have hltp : g.width * p.y.toNat + p.x.toNat < g.width * g.height := by
    have h0 := index_lt_of_contains hp
    rw [hwN, hhN] at h0
    exact h0
  rw [Nat.mod_eq_of_lt (Nat.lt_of_lt_of_le hltq hov),
    Nat.mod_eq_of_lt (Nat.lt_of_lt_of_le hltp hov)]
  intro heq
  rcases index_inj hqx hpx heq with ⟨hx, hy⟩
  apply hne
  apply cellPos_ext
  · rw [← Int.toNat_of_nonneg hqx0, ← Int.toNat_of_nonneg hpx0, hx]
  · rw [← Int.toNat_of_nonneg hqy0, ← Int.toNat_of_nonneg hpy0, hy]

/-- Reading a position whose index computation succeeded is the (possibly
panicking) vector access at that index. -/
theorem cell_eq_of_index_ok {g : Grid} {q : CellPos} {i : Nat}
    (h : g.cell_pos_to_index q = Except.ok i) :
    g.cell q = (g.cells[i]?).map Except.ok := by
  unfold Grid.cell
  rw [h]

/-- Writing one in-bounds cell (with non-wrapping index arithmetic)
preserves the dimensions and every other position's read result. -/
theorem set_cell_frame {g : Grid} {p : CellPos} {c : Cell} (hwf : g.WF)
    (hov : g.width * g.height ≤ 4294967296) (hp : g.contains_pos p = true) :
    ∃ g2, g.set_cell p c = some (Except.ok Unit.unit, g2) ∧
      g2.width = g.width ∧ g2.height = g.height ∧
      ∀ q, q ≠ p → g2.cell q = g.cell q := by
  refine ⟨_, set_cell_of_WF hwf hp, rfl, rfl, ?_⟩
  intro q hne
  by_cases hq : g.contains_pos q = true
  · have hq2 : (Grid.mk g.width g.height
        (g.cells.set ((g.width * p.y.toNat + p.x.toNat) % 4294967296)
          c)).contains_pos q = true := hq
    have e2 := cell_pos_to_index_of_WF (WF_set hwf) hq2
    rw [show (Grid.mk g.width g.height
        (g.cells.set ((g.width * p.y.toNat + p.x.toNat) % 4294967296)
          c)).width = g.width from rfl] at e2
    have eg2 := cell_eq_of_index_ok e2
    rw [show (Grid.mk g.width g.height
        (g.cells.set ((g.width * p.y.toNat + p.x.toNat) % 4294967296)
          c)).cells =
        g.cells.set ((g.width * p.y.toNat + p.x.toNat) % 4294967296) c
      from rfl] at eg2
    have eg := cell_eq_of_index_ok (cell_pos_to_index_of_WF hwf hq)
    rw [eg2, eg, List.getElem?_set_ne
      (index_ne_of_ne hwf.1 hwf.2.1 hov hp hq hne).symm]
  · have hqf : g.contains_pos q = false := by
      cases hv : g.contains_pos q
      · rfl
      · exact absurd hv hq
    have hq2f : (Grid.mk g.width g.height
        (g.cells.set ((g.width * p.y.toNat + p.x.toNat) % 4294967296)
          c)).contains_pos q = false := hqf
    rw [cell_of_not_contains hq2f, cell_of_not_contains hqf]

/-- C9 (amended): provided `width*height ≤ 2^32` (no `u32` wrap in the index
arithmetic), `set_cell` at an in-bounds position succeeds, preserves width
and height, and leaves every other in-bounds position's cell unchanged. -/
theorem c9_set_cell_frame_property (g : Grid) (p : CellPos) (c : Cell)
    (hwf : g.WF) (hov : g.width * g.height ≤ 4294967296)
    (hp : g.contains_pos p = true) :
    ∃ g2, g.set_cell p c = some (Except.ok Unit.unit, g2) ∧
      g2.width = g.width ∧ g2.height = g.height ∧
      ∀ q, g.contains_pos q = true → q ≠ p → g2.cell q = g.cell q := by
  obtain ⟨g2, hs, hw2, hh2, hframe⟩ := set_cell_frame hwf hov hp
  exact ⟨g2, hs, hw2, hh2, fun q _ hne => hframe q hne⟩

/-- Counterexample to C9 as stated: on a well-formed `2^30 x 8` grid, setting
the cell at (0, 0) to wall also changes the value read at the distinct valid
position (0, 4), because both positions share the wrapped `u32` index 0. -/
theorem c9_counterexample :
    (Grid.mk 1073741824 8 (List.replicate 8589934592 { is_wall := false })).WF ∧
    (Grid.mk 1073741824 8
        (List.replicate 8589934592 { is_wall := false })).contains_pos
      { x := 0, y := 0 } = true ∧
    (Grid.mk 1073741824 8
        (List.replicate 8589934592 { is_wall := false })).contains_pos
      { x := 0, y := 4 } = true ∧
    ({ x := 0, y := 4 } : CellPos) ≠ { x := 0, y := 0 } ∧
    (Grid.mk 1073741824 8
        (List.replicate 8589934592 { is_wall := false })).set_cell
      { x := 0, y := 0 } { is_wall := true } =
      some (Except.ok Unit.unit,
        Grid.mk 1073741824 8
          ((List.replicate 8589934592 { is_wall := false }).set 0
            { is_wall := true })) ∧
    (Grid.mk 1073741824 8
        (List.replicate 8589934592 { is_wall := false })).cell
      { x := 0, y := 4 } = some (Except.ok { is_wall := false }) ∧
    (Grid.mk 1073741824 8
        ((List.replicate 8589934592 { is_wall := false }).set 0
          { is_wall := true })).cell
      { x := 0, y := 4 } = some (Except.ok { is_wall := true }) := by
  have hwf9 : (Grid.mk 1073741824 8
      (List.replicate 8589934592 ({ is_wall := false } : Cell))).WF := by
    refine ⟨by norm_num, by norm_num, ?_⟩
    rw [List.length_replicate]
    norm_num
  have hwf9s : (Grid.mk 1073741824 8
      ((List.replicate 8589934592 ({ is_wall := false } : Cell)).set 0
        ({ is_wall := true } : Cell))).WF := by
    refine ⟨by norm_num, by norm_num, ?_⟩
    rw [List.length_set, List.length_replicate]
    norm_num
  refine ⟨hwf9, by decide, by decide, by decide, ?_, ?_, ?_⟩
  · rw [set_cell_of_WF hwf9 (by decide)]
    norm_num
  · rw [cell_eq_of_index_ok (cell_pos_to_index_of_WF hwf9 (by decide))]
    norm_num [List.getElem?_replicate, show (4 : Int).toNat = 4 from rfl]
  · rw [cell_eq_of_index_ok (cell_pos_to_index_of_WF hwf9s (by decide))]
    have hget : ((List.replicate 8589934592 ({ is_wall := false } : Cell)).set 0
        ({ is_wall := true } : Cell))[0]? = some { is_wall := true } :=
      List.getElem?_set_self (by rw [List.length_replicate]; norm_num)
    norm_num [hget, show (4 : Int).toNat = 4 from rfl]

/-- Witness for C9 (amended) at the 3x2 grid, writing a wall at (0, 0). -/
theorem c9_witness :
    ∃ g2, (Grid.new 3 2).set_cell { x := 0, y := 0 } { is_wall := true } =
        some (Except.ok Unit.unit, g2) ∧
      g2.width = (Grid.new 3 2).width ∧ g2.height = (Grid.new 3 2).height ∧
      ∀ q, (Grid.new 3 2).contains_pos q = true → q ≠ { x := 0, y := 0 } →
        g2.cell q = (Grid.new 3 2).cell q :=
  c9_set_cell_frame_property (Grid.new 3 2) { x := 0, y := 0 }
    { is_wall := true } ⟨by decide, by decide, by decide⟩ (by decide) (by decide)

/-- C8 (amended): on a fresh 5x5 grid with the random draws producing (1, 1),
one invocation of `randomize_cells` flips exactly the cell at (1, 1) from
non-wall to wall (every other position reads unchanged) and attaches a
`CellChangeEvent` carrying the changed position — the event payload holds
only the position, not the new wall state. -/
theorem c8_randomize_mutator_scenario :
    randomize_cells (Grid.new 5 5) 1 1 =
      some (Grid.mk 5 5
          ((List.replicate 25 { is_wall := false }).set 6 { is_wall := true }),
        { cell_pos := { x := 1, y := 1 } }) ∧
    (Grid.new 5 5).cell { x := 1, y := 1 } =
      some (Except.ok { is_wall := false }) ∧
    (Grid.mk 5 5 ((List.replicate 25 { is_wall := false }).set 6
        { is_wall := true })).cell { x := 1, y := 1 } =
      some (Except.ok { is_wall := true }) ∧
    ∀ q, q ≠ { x := 1, y := 1 } →
      (Grid.mk 5 5 ((List.replicate 25 { is_wall := false }).set 6
          { is_wall := true })).cell q = (Grid.new 5 5).cell q := by
  refine ⟨by decide, by rfl, by rfl, ?_⟩
  obtain ⟨g2, hs, -, -, hframe⟩ :=
    @set_cell_frame (Grid.new 5 5) { x := 1, y := 1 } { is_wall := true }
      ⟨by decide, by decide, by decide⟩ (by decide) (by decide)
  have hval : (Grid.new 5 5).set_cell { x := 1, y := 1 } { is_wall := true } =
      some (Except.ok Unit.unit,
        Grid.mk 5 5 ((List.replicate 25 { is_wall := false }).set 6
          { is_wall := true })) := by rfl
  have hg2 : g2 = Grid.mk 5 5 ((List.replicate 25 { is_wall := false }).set 6
      { is_wall := true }) :=
    congrArg Prod.snd (Option.some.inj (hs.symm.trans hval))
  intro q hq
  rw [← hg2]
  exact hframe q hq

/-- Counterexample to C8 as stated: two mutations whose new wall states
differ (false to wall on the fresh grid, wall to false on the once-mutated
grid) emit the identical event value `CellChangeEvent((1,1))`, so the emitted
event cannot carry the new `is_wall` state — its payload is the position
only. -/
theorem c8_counterexample :
    randomize_cells (Grid.new 5 5) 1 1 =
      some (Grid.mk 5 5 ((List.replicate 25 { is_wall := false }).set 6
          { is_wall := true }),
        { cell_pos := { x := 1, y := 1 } }) ∧
    randomize_cells (Grid.mk 5 5 ((List.replicate 25 { is_wall := false }).set 6
        { is_wall := true })) 1 1 =
      some (Grid.mk 5 5 (List.replicate 25 { is_wall := false }),
        { cell_pos := { x := 1, y := 1 } }) ∧
    (Grid.mk 5 5 ((List.replicate 25 { is_wall := false }).set 6
        { is_wall := true })).cell { x := 1, y := 1 } =
      some (Except.ok { is_wall := true }) ∧
    (Grid.mk 5 5 (List.replicate 25 { is_wall := false })).cell
      { x := 1, y := 1 } = some (Except.ok { is_wall := false }) ∧
    ({ is_wall := true } : Cell) ≠ { is_wall := false } :=
  ⟨by decide, by decide, by rfl, by rfl, by decide⟩

/-- Witness for C8 (amended): the frame part evaluated at position (0, 0). -/
theorem c8_witness :
    ({ x := 0, y := 0 } : CellPos) ≠ { x := 1, y := 1 } ∧
      (Grid.mk 5 5 ((List.replicate 25 { is_wall := false }).set 6
          { is_wall := true })).cell { x := 0, y := 0 } =
        (Grid.new 5 5).cell { x := 0, y := 0 } :=
  ⟨by decide, c8_randomize_mutator_scenario.2.2.2 { x := 0, y := 0 } (by decide)⟩

/-- On a well-formed grid with `i32`-representable dimensions the iteration
completes without panic. -/
theorem iter_isSome_of_WF {g : Grid} (hwf : g.WF) (hw : g.width < 2147483648)
    (hh : g.height < 2147483648) : (g.iter_cell_pos).isSome = true := by
  have hall : ∀ p ∈ g.cartesian_positions, (g.cell_expect p).isSome := by
    intro p hp
    rw [mem_cartesian_positions (by omega) (by omega)] at hp
    obtain ⟨a, ha, b, hb, rfl⟩ := hp
    have hc := contains_pos_of_coords (by omega) (by omega) ha hb
    obtain ⟨c, hce, -⟩ := cell_expect_of_WF hwf hc
    exact Option.isSome_iff_exists.mpr ⟨c, hce⟩
  obtain ⟨l, hl, -, -⟩ := iter_cells_some_of hall
  show (iter_cells g g.cartesian_positions).isSome = true
  rw [hl]
  rfl

/-- C10: on every grid satisfying the data-model invariant
(`cell_count = width*height` with `width*height` representable in `u32`),
every position passing the bounds check computes an index inside the cell
vector, so `cell`, `set_cell`, `cell_mut` and every step of the iteration
return without panicking. -/
theorem c10_internal_indexing_safe (g : Grid) (p : CellPos) (c : Cell)
    (hwf : g.WF) (_hov : g.width * g.height < 4294967296)
    (hp : g.contains_pos p = true) :
    (g.cell p).isSome = true ∧ (g.set_cell p c).isSome = true ∧
      (g.cell_mut p).isSome = true ∧ (g.iter_cell_pos).isSome = true := by
  obtain ⟨-, -, hW, hH, -, -⟩ := contains_pos_bounds hp
  have hw : g.width < 2147483648 := by
    rw [Nat.mod_eq_of_lt hwf.1] at hW
    exact hW
  have hh : g.height < 2147483648 := by
    rw [Nat.mod_eq_of_lt hwf.2.1] at hH
    exact hH
  obtain ⟨cc, hcell, -⟩ := cell_of_WF hwf hp
  refine ⟨by rw [hcell]; rfl, by rw [set_cell_of_WF hwf hp]; rfl, ?_,
    iter_isSome_of_WF hwf hw hh⟩
  show (g.cell p).isSome = true
  rw [hcell]
  rfl

/-- Witness for C10 at the 3x2 grid, position (1, 1). -/
theorem c10_witness :
    ((Grid.new 3 2).cell { x := 1, y := 1 }).isSome = true ∧
      ((Grid.new 3 2).set_cell { x := 1, y := 1 }
        { is_wall := true }).isSome = true ∧
      ((Grid.new 3 2).cell_mut { x := 1, y := 1 }).isSome = true ∧
      ((Grid.new 3 2).iter_cell_pos).isSome = true :=
  c10_internal_indexing_safe (Grid.new 3 2) { x := 1, y := 1 }
    { is_wall := true } ⟨by decide, by decide, by decide⟩ (by decide) (by decide)
